import Mathlib

set_option maxRecDepth 100000

/-!
Verification of the concurrent probing core of PyNetScanner.

The Python sources are shallowly embedded: pure string/arithmetic code is
translated to executable Lean functions, and the network side effects of a
probe (the result of `connect_ex`, the exceptions raised by the socket /
ping layer, the completion order of the worker pool) are passed in
explicitly as oracles, so that every claim about the control flow of the
scanner becomes a statement about a total function.

Python `int` values are modelled as `Int` (they are unbounded in Python as
well); Python's floor-division `>>` and mask `& 0xFF` become `Int.fdiv`
and `Int.emod`, which agree with Python's `//` and `%` on any sign.
Latencies are `float` in the source; they are carried here as abstract
`Int` measurements, since no claim depends on real arithmetic.
-/

/-! ## String helpers: Python `str.split` and `int()` -/

/-- Python `s.split(c)` for a one-character separator `c`, on the
character list of the string: `"a//b"` gives `["a", "", "b"]` and the
empty string gives `[""]`. -/
def splitOnChar (c : Char) : List Char → List (List Char)
  | [] => [[]]
  | x :: xs =>
    if x = c then [] :: splitOnChar c xs
    else
      match splitOnChar c xs with
      | [] => [[x]]
      | y :: ys => (x :: y) :: ys

/-- Python `s.split(c)` as a function on `String`. -/
def pySplit (c : Char) (s : String) : List String :=
  (splitOnChar c s.toList).map (fun cs => String.mk cs)

/-- Value of a decimal digit character, `none` on a non-digit. -/
def digitVal (c : Char) : Option Nat :=
  if c.isDigit then some (c.toNat - 48) else none

/-- Decimal value of a nonempty all-digit character list. -/
def digitsVal (cs : List Char) : Option Nat :=
  cs.foldl
    (fun acc c =>
      match acc, digitVal c with
      | some n, some d => some (n * 10 + d)
      | _, _ => none)
    (some 0)

/-- Digit-run parser requiring at least one digit. -/
def pyIntCore (cs : List Char) : Option Nat :=
  if cs.isEmpty then none else digitsVal cs

/-- Python `int(s)` for a decimal literal with an optional sign, `none`
where `int()` raises `ValueError`.  (Python additionally strips
whitespace and allows `_` digit separators; no input used below relies on
those.) -/
def pyInt (s : String) : Option Int :=
  match s.toList with
  | '-' :: rest => (pyIntCore rest).map (fun n => -(n : Int))
  | '+' :: rest => (pyIntCore rest).map (fun n => (n : Int))
  | cs => (pyIntCore cs).map (fun n => (n : Int))

/-- Python `[int(p) for p in parts]`: all-or-nothing parse of a list of decimal
strings. -/
def parseParts : List String → Option (List Int)
  | [] => some []
  | s :: rest =>
    match pyInt s, parseParts rest with
    | some v, some vs => some (v :: vs)
    | _, _ => none

/-! ## `host_discovery.get_ip_range_from_cidr` (src/network/host_discovery.py, lines 36-70) -/

/-- The fallible head of `get_ip_range_from_cidr`: `cidr.split('/')` must
give exactly two pieces, `int(prefix)` must parse, every dot-separated
piece of the network must parse as an `int`, and at least four pieces
must exist (fewer raise `IndexError` inside the `try`).  Returns the
integer base address `(parts[0] << 24) + (parts[1] << 16) +
(parts[2] << 8) + parts[3]` and the prefix. -/
def parseCidr (cidr : String) : Option (Int × Int) :=
  match pySplit '/' cidr with
  | [network, pfxStr] =>
    match pyInt pfxStr with
    | none => none
    | some pfx =>
      match parseParts (pySplit '.' network) with
      | some (p0 :: p1 :: p2 :: p3 :: _) =>
        some (p0 * 16777216 + p1 * 65536 + p2 * 256 + p3, pfx)
      | _ => none
  | _ => none

/-- Rendering `f"{(ip_int >> 24) & 0xFF}.{(ip_int >> 16) & 0xFF}.{(ip_int >> 8) & 0xFF}.{ip_int & 0xFF}"`:
dotted-quad rendering of an integer address. -/
def renderIp (ipInt : Int) : String :=
  toString ((ipInt.fdiv 16777216).emod 256) ++ "." ++
  toString ((ipInt.fdiv 65536).emod 256) ++ "." ++
  toString ((ipInt.fdiv 256).emod 256) ++ "." ++
  toString (ipInt.emod 256)

/-- Function `get_ip_range_from_cidr`: every failure inside the `try` (bad split,
bad `int`, missing parts, and the `ValueError` that `1 << host_bits`
raises when `host_bits < 0`, i.e. when the prefix exceeds 32) is caught
and yields `[]`.  Otherwise `num_hosts = (1 << (32 - prefix)) - 2` capped
at 254, and the addresses `base + 1 .. base + num_hosts` are rendered
(`range(1, num_hosts + 1)` is empty whenever `num_hosts <= 0`). -/
def get_ip_range_from_cidr (cidr : String) : List String :=
  match parseCidr cidr with
  | none => []
  | some (base, pfx) =>
    if 32 < pfx then []
    else
      let numHosts0 : Int := 2 ^ (32 - pfx).toNat - 2
      let numHosts : Int := if 254 < numHosts0 then 254 else numHosts0
      (List.range' 1 numHosts.toNat).map
        (fun i : Nat => renderIp (base + (i : Int)))

/-- C1 counterexample: `"10.0.0.0/32"` is a well-formed CIDR whose prefix 32
lies in `[0,32]`, yet the function returns 0 addresses while the claimed
count `min(2^(32-32) - 2, 254)` is `-1`. -/
theorem cidr_count_formula_fails_at_32 :
    parseCidr "10.0.0.0/32" = some (167772160, 32)
    ∧ ¬ (((get_ip_range_from_cidr "10.0.0.0/32").length : Int)
          = min ((2 : Int) ^ ((32 : Int) - 32).toNat - 2) 254) := by
  exact ⟨by decide, by decide⟩

/-- C1 (amended): for every CIDR string accepted by the parser whose prefix
`p` lies in `[0,32]`, `get_ip_range_from_cidr` returns exactly
`max(0, min(2^(32-p) - 2, 254))` host addresses, the `i`-th being the
dotted-quad rendering of `base + 1 + i` (so the enumeration starts at the
integer base address plus one and the network/broadcast addresses are
excluded); in particular `"10.0.0.0/30"` yields exactly
`["10.0.0.1", "10.0.0.2"]`. -/
theorem cidr_enumeration_count (cidr : String) (base pfx : Int)
    (hp : parseCidr cidr = some (base, pfx)) (h0 : 0 ≤ pfx) (h32 : pfx ≤ 32) :
    ((get_ip_range_from_cidr cidr).length : Int)
        = max 0 (min ((2 : Int) ^ (32 - pfx).toNat - 2) 254)
    ∧ (∀ i (h : i < (get_ip_range_from_cidr cidr).length),
        (get_ip_range_from_cidr cidr)[i] = renderIp (base + 1 + (i : Int)))
    ∧ get_ip_range_from_cidr "10.0.0.0/30" = ["10.0.0.1", "10.0.0.2"] := by
  have hunf : get_ip_range_from_cidr cidr
      = (List.range' 1 (if 254 < (2 : Int) ^ (32 - pfx).toNat - 2 then (254 : Int)
            else 2 ^ (32 - pfx).toNat - 2).toNat).map
          (fun i : Nat => renderIp (base + (i : Int))) := by
    simp only [get_ip_range_from_cidr, hp]
    rw [if_neg (not_lt.mpr h32)]
  refine ⟨?_, ?_, by decide⟩
  · rw [hunf]
    simp only [List.length_map, List.length_range']
    generalize (2 : Int) ^ (32 - pfx).toNat = A
    rw [max_def, min_def]
    split_ifs <;> omega
  · intro i h
    simp only [hunf, List.getElem_map, List.getElem_range']
    congr 1
    push_cast
    ring

/-- Witness for `cidr_enumeration_count` at the concrete input
`"10.0.0.0/30"`. -/
theorem cidr_enumeration_count_witness :
    ((get_ip_range_from_cidr "10.0.0.0/30").length : Int)
      = max 0 (min ((2 : Int) ^ ((32 : Int) - 30).toNat - 2) 254) :=
  (cidr_enumeration_count "10.0.0.0/30" 167772160 30 (by decide) (by decide)
    (by decide)).1

example : pySplit '/' "10.0.0.0/30" = ["10.0.0.0", "30"] := by decide
example : parseCidr "10.0.0.0/30" = some (167772160, 30) := by decide
example : get_ip_range_from_cidr "10.0.0.0/30" = ["10.0.0.1", "10.0.0.2"] := by decide
example : get_ip_range_from_cidr "10.0.0.0/32" = [] := by decide
example : (get_ip_range_from_cidr "10.0.0.0/-1").length = 254 := by decide
example : parseCidr "abc" = none := by decide
example : parseCidr "10.0.0.0/24/8" = none := by decide

/-! ## `port_scanner` (src/network/port_scanner.py)

The socket side effects of one probe are summed up by the oracle
`ProbeEv`: `connect_ex` either returns an error code (`connRet`, `0` for
an established connection, nonzero such as `ECONNREFUSED` for a refusal)
or raises `socket.timeout` / `socket.gaierror` / some other exception.
`ProbeRes` adds the worker-boundary case of `future.result()` itself
raising an unexpected fault (`fault`), which lines 115-132 convert to an
`error` entry instead of aborting the batch. The order in which
`as_completed` yields futures is passed in as the `order` list, a
permutation of the submitted ports. -/

/-- Outcome of a socket connect attempt, as seen by `scan_port`. -/
inductive ProbeEv where
  | connRet (code : Int)
  | timeoutExc
  | gaierror
  | otherExc (msg : String)
deriving DecidableEq, Repr

/-- What one worker's `future.result()` delivers: a socket-level event
handled inside `scan_port`, or an unexpected fault raised out of the
worker. -/
inductive ProbeRes where
  | normal (ev : ProbeEv)
  | fault (msg : String)
deriving DecidableEq, Repr

/-- The per-port result dict of `scan_port`:
`{'port': .., 'status': .., 'service': .., 'error': ..}`. -/
structure Outcome where
  port : Nat
  status : String
  service : String
  error : Option String
deriving DecidableEq, Repr

/-- Table `COMMON_PORTS` (src/network/port_scanner.py, lines 11-33), in source
order.  Note it contains 21 entries, including `20: 'FTP-Data'`. -/
def commonPortsList : List (Nat × String) :=
  [(20, "FTP-Data"), (21, "FTP"), (22, "SSH"), (23, "Telnet"), (25, "SMTP"),
   (53, "DNS"), (80, "HTTP"), (110, "POP3"), (143, "IMAP"), (443, "HTTPS"),
   (445, "SMB"), (993, "IMAPS"), (995, "POP3S"), (3306, "MySQL"),
   (3389, "RDP"), (5432, "PostgreSQL"), (5900, "VNC"), (6379, "Redis"),
   (8080, "HTTP-Proxy"), (8443, "HTTPS-Alt"), (27017, "MongoDB")]

/-- Lookup `COMMON_PORTS.get(port, 'Unknown')`. -/
def commonPortsGet (port : Nat) : String :=
  ((commonPortsList.find? (fun e => e.1 == port)).map (fun e => e.2)).getD
    "Unknown"

/-- Function `scan_port` (lines 36-78): the initial dict carries status `closed`;
a `connect_ex` return of `0` flips it to `open`, any other return keeps
`closed`; `socket.timeout` gives `filtered` with message
`'Connection timed out'`; `socket.gaierror` gives `error` with
`'Could not resolve hostname'`; any other exception gives `error` with
its text. -/
def scan_port (host : String) (port : Nat) (ev : ProbeEv) : Outcome :=
  match ev with
  | .connRet c =>
    if c = 0 then ⟨port, "open", commonPortsGet port, none⟩
    else ⟨port, "closed", commonPortsGet port, none⟩
  | .timeoutExc => ⟨port, "filtered", commonPortsGet port,
      some "Connection timed out"⟩
  | .gaierror => ⟨port, "error", commonPortsGet port,
      some "Could not resolve hostname"⟩
  | .otherExc m => ⟨port, "error", commonPortsGet port, some m⟩

/-- Socket bookkeeping of one `scan_port` call, per probe event:
`(sockets created, sockets closed)`.  Lines 55-77 create the socket at
line 56 inside the `try` and call `sock.close()` only at line 66, on the
`connect_ex`-returned path; none of the three `except` handlers closes
the socket, so the timeout, name-resolution and generic-exception paths
leave it unclosed. -/
def scanPortSockets (ev : ProbeEv) : Nat × Nat :=
  match ev with
  | .connRet _ => (1, 1)
  | .timeoutExc => (1, 0)
  | .gaierror => (1, 0)
  | .otherExc _ => (1, 0)

/-- What lines 115-132 record for the port `p`: the `scan_port` dict when
`future.result()` returns, or the synthesized
`{'port': p, 'status': 'error', ...}` dict when it raises. -/
def workerOutcome (host : String) (oracle : Nat → ProbeRes) (p : Nat) :
    Outcome :=
  match oracle p with
  | .normal ev => scan_port host p ev
  | .fault msg => ⟨p, "error", commonPortsGet p, some msg⟩

/-- The `for future in as_completed(...)` loop of `scan_port_range` and
`scan_common_ports`: one appended result and one counter increment per
completed future, in completion order. -/
def collectLoop (host : String) (oracle : Nat → ProbeRes)
    (order : List Nat) : List Outcome × Nat :=
  order.foldl
    (fun acc p => (acc.1 ++ [workerOutcome host oracle p], acc.2 + 1))
    ([], 0)

/-- The comparison behind `results.sort(key=lambda x: x['port'])`. -/
def portLe (a b : Outcome) : Prop := a.port ≤ b.port

instance : DecidableRel portLe := fun a b => Nat.decLe a.port b.port

instance : IsTotal Outcome portLe := ⟨fun a b => Nat.le_total a.port b.port⟩

instance : IsTrans Outcome portLe := ⟨fun _ _ _ => Nat.le_trans⟩

/-- The Result Ranker for port scans: the final
`results.sort(key=lambda x: x['port'])` (a stable sort by port, like
Python's `list.sort`). -/
def rank_ports (l : List Outcome) : List Outcome :=
  List.insertionSort portLe l

/-- Function `scan_port_range` (lines 81-136): submits one probe per port in
`range(start_port, end_port + 1)`, collects completions in `order`,
and returns the port-sorted results together with the final value of the
`scanned` counter. -/
def scan_port_range (host : String) (start_port end_port : Nat)
    (oracle : Nat → ProbeRes) (order : List Nat) : List Outcome × Nat :=
  let pr := collectLoop host oracle order
  (rank_ports pr.1, pr.2)

/-- Function `scan_common_ports` (lines 139-186): the same collection loop over
`list(COMMON_PORTS.keys())`. -/
def scan_common_ports (host : String) (oracle : Nat → ProbeRes)
    (order : List Nat) : List Outcome × Nat :=
  let pr := collectLoop host oracle order
  (rank_ports pr.1, pr.2)

/-! ### Batch collection lemmas -/

lemma workerOutcome_port (host : String) (oracle : Nat → ProbeRes)
    (p : Nat) : (workerOutcome host oracle p).port = p := by
  unfold workerOutcome scan_port
  cases oracle p with
  | normal ev => cases ev with
    | connRet c => by_cases hc : c = 0 <;> simp [hc]
    | timeoutExc => rfl
    | gaierror => rfl
    | otherExc m => rfl
  | fault msg => rfl

lemma workerOutcome_service (host : String) (oracle : Nat → ProbeRes)
    (p : Nat) : (workerOutcome host oracle p).service = commonPortsGet p := by
  unfold workerOutcome scan_port
  cases oracle p with
  | normal ev => cases ev with
    | connRet c => by_cases hc : c = 0 <;> simp [hc]
    | timeoutExc => rfl
    | gaierror => rfl
    | otherExc m => rfl
  | fault msg => rfl

lemma map_workerOutcome_port (host : String) (oracle : Nat → ProbeRes)
    (ports : List Nat) :
    (ports.map (workerOutcome host oracle)).map (fun r => r.port) = ports := by
  rw [List.map_map]
  have h : ∀ p ∈ ports, ((fun r : Outcome => r.port) ∘ workerOutcome host oracle) p
      = id p := fun p _ => workerOutcome_port host oracle p
  rw [List.map_congr_left h, List.map_id]

lemma collectLoop_eq (host : String) (oracle : Nat → ProbeRes)
    (order : List Nat) :
    collectLoop host oracle order
      = (order.map (workerOutcome host oracle), order.length) := by
  have go : ∀ (l : List Nat) (acc : List Outcome × Nat),
      l.foldl (fun acc p => (acc.1 ++ [workerOutcome host oracle p], acc.2 + 1)) acc
        = (acc.1 ++ l.map (workerOutcome host oracle), acc.2 + l.length) := by
    intro l
    induction l with
    | nil => intro acc; simp
    | cons p rest ih =>
      intro acc
      simp only [List.foldl_cons, ih, List.map_cons, List.length_cons]
      simp [Prod.ext_iff]
      omega
  unfold collectLoop
  rw [go]
  simp

/-- Sorting the completion-ordered outcomes recovers the submission-ordered
outcomes whenever the submitted keys are strictly ascending: the sorted
list is a permutation of the canonical per-port outcome list and both are
sorted by their (unique) port keys. -/
lemma rank_ports_map_eq (host : String) (oracle : Nat → ProbeRes)
    (ports order : List Nat) (hperm : order.Perm ports)
    (hlt : List.Pairwise (· < ·) ports) :
    rank_ports (order.map (workerOutcome host oracle))
      = ports.map (workerOutcome host oracle) := by
  have hp1 : (rank_ports (order.map (workerOutcome host oracle))).Perm
      (ports.map (workerOutcome host oracle)) :=
    (List.perm_insertionSort portLe _).trans
      (hperm.map (workerOutcome host oracle))
  have hs1 : List.Sorted portLe
      (rank_ports (order.map (workerOutcome host oracle))) :=
    List.sorted_insertionSort portLe _
  have hkey1 : List.Pairwise (· ≤ ·)
      ((rank_ports (order.map (workerOutcome host oracle))).map
        (fun r => r.port)) :=
    List.pairwise_map.mpr (hs1.imp fun h => h)
  have hkey2 : List.Pairwise (· ≤ ·) ports := hlt.imp Nat.le_of_lt
  have hpk : ((rank_ports (order.map (workerOutcome host oracle))).map
      (fun r => r.port)).Perm ports := by
    have := hp1.map (fun r : Outcome => r.port)
    rwa [map_workerOutcome_port] at this
  have hkeys : (rank_ports (order.map (workerOutcome host oracle))).map
      (fun r => r.port) = ports :=
    List.eq_of_perm_of_sorted hpk hkey1 hkey2
  have hself : ∀ r ∈ rank_ports (order.map (workerOutcome host oracle)),
      workerOutcome host oracle r.port = r := by
    intro r hr
    have hmem : r ∈ order.map (workerOutcome host oracle) :=
      (List.mem_insertionSort portLe).mp hr
    obtain ⟨p, _, rfl⟩ := List.mem_map.mp hmem
    rw [workerOutcome_port]
  have hmapself : (rank_ports (order.map (workerOutcome host oracle))).map
      (fun r => workerOutcome host oracle r.port)
        = rank_ports (order.map (workerOutcome host oracle)) := by
    have h2 := List.map_congr_left (fun r hr => hself r hr)
    rw [h2]
    simp
  calc rank_ports (order.map (workerOutcome host oracle))
      = (rank_ports (order.map (workerOutcome host oracle))).map
          (fun r => workerOutcome host oracle r.port) := hmapself.symm
    _ = ((rank_ports (order.map (workerOutcome host oracle))).map
          (fun r => r.port)).map (workerOutcome host oracle) := by
        rw [List.map_map]; rfl
    _ = ports.map (workerOutcome host oracle) := by rw [hkeys]

/-- Function `scan_port_range`, evaluated: for any completion order that is a
permutation of the submitted ports, the returned list is the canonical
per-port outcome list in ascending port order, and the counter is the
number of ports. -/
lemma scan_port_range_eq (host : String) (oracle : Nat → ProbeRes)
    (start_port end_port : Nat) (order : List Nat)
    (hord : order.Perm (List.range' start_port (end_port + 1 - start_port))) :
    scan_port_range host start_port end_port oracle order
      = ((List.range' start_port (end_port + 1 - start_port)).map
          (workerOutcome host oracle), end_port + 1 - start_port) := by
  unfold scan_port_range
  rw [collectLoop_eq]
  refine Prod.ext ?_ ?_
  · exact rank_ports_map_eq host oracle _ order hord
      (List.pairwise_lt_range' start_port (end_port + 1 - start_port))
  · simpa using hord.length_eq

/-- C5: for `1 ≤ start_port ≤ end_port ≤ 65535` and any completion order,
`scan_port_range` returns exactly `end_port - start_port + 1` outcomes
whose port keys are strictly ascending (hence pairwise distinct) and are
exactly the integers of `[start_port, end_port]`, and the `scanned`
counter equals that total on return. -/
theorem scan_port_range_partition (host : String) (oracle : Nat → ProbeRes)
    (start_port end_port : Nat) (order : List Nat)
    (h1 : 1 ≤ start_port) (h2 : start_port ≤ end_port)
    (h3 : end_port ≤ 65535)
    (hord : order.Perm (List.range' start_port (end_port + 1 - start_port))) :
    (scan_port_range host start_port end_port oracle order).1.length
        = end_port - start_port + 1
    ∧ (scan_port_range host start_port end_port oracle order).1.map
        (fun r => r.port) = List.range' start_port (end_port - start_port + 1)
    ∧ List.Pairwise (· < ·)
        ((scan_port_range host start_port end_port oracle order).1.map
          (fun r => r.port))
    ∧ (scan_port_range host start_port end_port oracle order).2
        = end_port - start_port + 1 := by
  have hn : end_port + 1 - start_port = end_port - start_port + 1 := by omega
  rw [scan_port_range_eq host oracle start_port end_port order hord]
  rw [map_workerOutcome_port, hn]
  exact ⟨by simp, rfl, List.pairwise_lt_range' _ _, rfl⟩

/-- Witness for `scan_port_range_partition`: a concrete 6-port scan of
ports 20-25 with an all-refused oracle delivered in reverse order. -/
theorem scan_port_range_partition_witness :
    (scan_port_range "127.0.0.1" 20 25 (fun _ => .normal (.connRet 111))
        [25, 24, 23, 22, 21, 20]).1.map (fun r => r.port)
      = List.range' 20 (25 - 20 + 1) :=
  (scan_port_range_partition "127.0.0.1" (fun _ => .normal (.connRet 111))
    20 25 [25, 24, 23, 22, 21, 20] (by decide) (by decide) (by decide)
    (by decide)).2.1

/-- C6: if exactly one port `f` in the batch suffers an unexpected
worker-level fault while every other port's probe completes normally,
then the fault shows up as the single `error` outcome
`{'port': f, 'status': 'error', ...}`, every normally completed probe's
outcome is still present unchanged, no unit is dropped, and the counter
still reaches the total. -/
theorem scan_port_range_fault_isolated (host : String)
    (oracle : Nat → ProbeRes) (start_port end_port f : Nat) (msg : String)
    (order : List Nat)
    (hf1 : start_port ≤ f) (hf2 : f ≤ end_port)
    (hfault : oracle f = .fault msg)
    (hrest : ∀ p, p ≠ f → ∃ c, oracle p = .normal (.connRet c))
    (hord : order.Perm (List.range' start_port (end_port + 1 - start_port))) :
    (scan_port_range host start_port end_port oracle order).1.filter
        (fun r => r.status == "error")
      = [⟨f, "error", commonPortsGet f, some msg⟩]
    ∧ (∀ p ev, start_port ≤ p → p ≤ end_port → oracle p = .normal ev →
        scan_port host p ev
          ∈ (scan_port_range host start_port end_port oracle order).1)
    ∧ (scan_port_range host start_port end_port oracle order).1.length
        = end_port - start_port + 1
    ∧ (scan_port_range host start_port end_port oracle order).2
        = end_port - start_port + 1 := by
  have hn : end_port + 1 - start_port = end_port - start_port + 1 := by omega
  rw [scan_port_range_eq host oracle start_port end_port order hord]
  refine ⟨?_, ?_, by simp [hn], by simp [hn]⟩
  · rw [List.filter_map]
    have hcongr : ∀ p ∈ List.range' start_port (end_port + 1 - start_port),
        ((fun r : Outcome => r.status == "error") ∘ workerOutcome host oracle) p
          = (fun x => decide (x = f)) p := by
      intro p _
      by_cases hpf : p = f
      · subst hpf
        simp [workerOutcome, hfault]
      · obtain ⟨c, hc⟩ := hrest p hpf
        by_cases hc0 : c = 0 <;>
          simp [workerOutcome, hc, scan_port, hc0, hpf]
    rw [List.filter_congr hcongr, List.filter_eq,
      List.count_eq_one_of_mem (List.nodup_range' _ _)
        (by rw [List.mem_range'_1]; omega)]
    simp [workerOutcome, hfault]
  · intro p ev hp1 hp2 hev
    refine List.mem_map.mpr ⟨p, ?_, ?_⟩
    · rw [List.mem_range'_1]; omega
    · simp [workerOutcome, hev]

/-- Witness for `scan_port_range_fault_isolated`: ports 10-12 with port 11
faulting. -/
theorem scan_port_range_fault_isolated_witness :
    (scan_port_range "h" 10 12
        (fun p => if p = 11 then .fault "boom" else .normal (.connRet 0))
        [12, 10, 11]).1.filter (fun r => r.status == "error")
      = [⟨11, "error", commonPortsGet 11, some "boom"⟩] :=
  (scan_port_range_fault_isolated "h"
    (fun p => if p = 11 then .fault "boom" else .normal (.connRet 0))
    10 12 11 "boom" [12, 10, 11] (by decide) (by decide) (by decide)
    (fun p hp => ⟨0, by simp [hp]⟩) (by decide)).1

/-- Function `scan_common_ports`, evaluated: for any completion order that is a
permutation of `list(COMMON_PORTS.keys())`, the result is the canonical
per-port outcome list over the 21 table keys, and the counter is 21. -/
lemma scan_common_ports_eq (host : String) (oracle : Nat → ProbeRes)
    (order : List Nat)
    (hord : order.Perm (commonPortsList.map (fun e => e.1))) :
    scan_common_ports host oracle order
      = ((commonPortsList.map (fun e => e.1)).map (workerOutcome host oracle),
          21) := by
  unfold scan_common_ports
  rw [collectLoop_eq]
  refine Prod.ext ?_ ?_
  · exact rank_ports_map_eq host oracle _ order hord (by decide)
  · simpa using hord.length_eq

/-- The 20-port table asserted by the spec's common-port claim (which
omits port 20). -/
def claimedCommonPortTable : List Nat :=
  [21, 22, 23, 25, 53, 80, 110, 143, 443, 445, 993, 995, 3306, 3389, 5432,
   5900, 6379, 8080, 8443, 27017]

/-- C4 counterexample: `scan_common_ports` probes port 20 (`FTP-Data`),
which is not in the 20-port table listed by the claim, so it does not
probe over exactly that table. -/
theorem scan_common_ports_probes_port_20 :
    20 ∈ ((scan_common_ports "localhost" (fun _ => .normal (.connRet 111))
        (commonPortsList.map (fun e => e.1))).1.map (fun r => r.port))
    ∧ 20 ∉ claimedCommonPortTable := by
  exact ⟨by decide, by decide⟩

/-- C4 (amended): `scan_common_ports` probes exactly one unit per port of
the fixed 21-entry `COMMON_PORTS` table — the claim's 20 ports plus
`FTP-Data 20` — each labeled with the table's service name, and no other
port: the sorted port keys are exactly the 21 table keys and every
outcome's service is the `COMMON_PORTS` lookup for its port. -/
theorem scan_common_ports_units (host : String) (oracle : Nat → ProbeRes)
    (order : List Nat)
    (hord : order.Perm (commonPortsList.map (fun e => e.1))) :
    (scan_common_ports host oracle order).1.map (fun r => r.port)
      = [20, 21, 22, 23, 25, 53, 80, 110, 143, 443, 445, 993, 995, 3306,
         3389, 5432, 5900, 6379, 8080, 8443, 27017]
    ∧ (∀ r ∈ (scan_common_ports host oracle order).1,
        r.service = commonPortsGet r.port)
    ∧ (scan_common_ports host oracle order).2 = 21 := by
  rw [scan_common_ports_eq host oracle order hord]
  refine ⟨by rw [map_workerOutcome_port]; rfl, ?_, rfl⟩
  intro r hr
  obtain ⟨p, _, rfl⟩ := List.mem_map.mp hr
  rw [workerOutcome_port, workerOutcome_service]

/-- Witness for `scan_common_ports_units` with the identity completion
order and an all-refused oracle. -/
theorem scan_common_ports_units_witness :
    (scan_common_ports "localhost" (fun _ => .normal (.connRet 111))
        (commonPortsList.map (fun e => e.1))).2 = 21 := by
  have h := scan_common_ports_units "localhost"
    (fun _ => .normal (.connRet 111))
    (commonPortsList.map (fun e => e.1)) (List.Perm.refl _)
  exact h.2.2

/-- C7: `scan_port` maps the probe events to statuses exactly as claimed:
`connect_ex` returning 0 gives `open`; a nonzero return (a refusal) gives
`closed`; `socket.timeout` gives `filtered` with the timeout message;
`socket.gaierror` gives `error` with the resolution message; any other
exception gives `error` with its text; and the status is always exactly
one of these. -/
theorem scan_port_status_taxonomy (host : String) (port : Nat)
    (ev : ProbeEv) :
    (ev = .connRet 0 → (scan_port host port ev).status = "open"
        ∧ (scan_port host port ev).error = none)
    ∧ (∀ c, c ≠ 0 → ev = .connRet c →
        (scan_port host port ev).status = "closed"
        ∧ (scan_port host port ev).error = none)
    ∧ (ev = .timeoutExc → (scan_port host port ev).status = "filtered"
        ∧ (scan_port host port ev).error = some "Connection timed out")
    ∧ (ev = .gaierror → (scan_port host port ev).status = "error"
        ∧ (scan_port host port ev).error = some "Could not resolve hostname")
    ∧ (∀ m, ev = .otherExc m → (scan_port host port ev).status = "error"
        ∧ (scan_port host port ev).error = some m)
    ∧ ((scan_port host port ev).status = "open"
        ∨ (scan_port host port ev).status = "closed"
        ∨ (scan_port host port ev).status = "filtered"
        ∨ (scan_port host port ev).status = "error") := by
  refine ⟨fun h => by subst h; simp [scan_port],
    fun c hc h => by subst h; simp [scan_port, hc],
    fun h => by subst h; simp [scan_port],
    fun h => by subst h; simp [scan_port],
    fun m h => by subst h; simp [scan_port], ?_⟩
  cases ev with
  | connRet c => by_cases hc : c = 0 <;> simp [scan_port, hc]
  | timeoutExc => simp [scan_port]
  | gaierror => simp [scan_port]
  | otherExc m => simp [scan_port]

/-- Witness for `scan_port_status_taxonomy` at the timeout event. -/
theorem scan_port_status_taxonomy_witness :
    (scan_port "example.com" 80 .timeoutExc).status = "filtered"
    ∧ (scan_port "example.com" 80 .timeoutExc).error
        = some "Connection timed out" :=
  (scan_port_status_taxonomy "example.com" 80 .timeoutExc).2.2.1 rfl

/-- C2 (the code violates the claim): on the `connect_ex`-returned paths
the single socket created by `scan_port` is closed, but on the timeout,
name-resolution-failure and generic-exception paths `sock.close()` is
never reached — there is no `finally`/`with` in lines 55-77 — so the
socket is not closed on every exit path. -/
theorem scan_port_socket_not_closed_on_exception :
    scanPortSockets .timeoutExc = (1, 0)
    ∧ scanPortSockets .gaierror = (1, 0)
    ∧ scanPortSockets (.otherExc "unreachable") = (1, 0)
    ∧ scanPortSockets (.connRet 0) = (1, 1)
    ∧ scanPortSockets (.connRet 111) = (1, 1) := by
  decide

/-! ## `network_utils.ping_host` / `tcp_ping` (src/network_utils.py, lines 70-122)

`tcp_ping` walks the fixed list `[80, 443, 22]`; each attempt either
returns a `connect_ex` code or raises (both a nonzero code and an
exception make the loop `continue`).  The measured latency of the attempt
on port `p` is the oracle value `lat p` (an abstract milliseconds
measurement standing for the `datetime` difference).  Alongside the
`(success, latency_ms, message)` triple the embedding records, as a ghost
trace, the list of ports actually attempted. -/

/-- One TCP fallback attempt: `connect_ex` return code, or an exception
(caught by the bare `except` and skipped). -/
inductive TcpAttempt where
  | ret (code : Int)
  | exc (msg : String)
deriving DecidableEq, Repr

/-- List `ports_to_try = [80, 443, 22]` (line 104). -/
def fallbackPorts : List Nat := [80, 443, 22]

/-- Returns `True` when the attempt does not take the `result == 0` success
branch: a nonzero `connect_ex` code or a raised exception. -/
def attemptFailed : TcpAttempt → Bool
  | .ret code => code != 0
  | .exc _ => true

/-- The `for port in ports_to_try` loop of `tcp_ping`: first attempt with
`connect_ex` code 0 returns `(True, latency, reply-message)` at once;
otherwise the loop continues; after the loop `(False, None, no-response)`
is returned. -/
def tcpPingGo (ip : String) (attempt : Nat → TcpAttempt) (lat : Nat → Int) :
    List Nat → (Bool × Option Int × String) × List Nat
  | [] => ((false, none, "Host " ++ ip ++ " tidak merespons pada port umum"),
      [])
  | p :: rest =>
    match attempt p with
    | .ret code =>
      if code = 0 then
        ((true, some (lat p),
          "Reply dari " ++ ip ++ " (TCP port " ++ toString p ++ "): time="
            ++ toString (lat p) ++ "ms"), [p])
      else
        let r := tcpPingGo ip attempt lat rest
        (r.1, p :: r.2)
    | .exc _ =>
      let r := tcpPingGo ip attempt lat rest
      (r.1, p :: r.2)

/-- Function `tcp_ping` (lines 99-122). -/
def tcp_ping (ip : String) (attempt : Nat → TcpAttempt) (lat : Nat → Int) :
    (Bool × Option Int × String) × List Nat :=
  tcpPingGo ip attempt lat fallbackPorts

/-- What `ping3.ping(ip, timeout=timeout)` did: returned a latency
(seconds, abstracted to `Int`), returned `None` (timeout), returned
`False` (unreachable), raised `PermissionError` (no raw-socket
privilege), or raised something else. -/
inductive IcmpEv where
  | echo (latSec : Int)
  | timeoutNone
  | unreachableFalse
  | permError
  | otherExc (msg : String)
deriving DecidableEq, Repr

/-- Function `ping_host` (lines 70-96): the ICMP result is translated directly,
except that `PermissionError` falls back to `tcp_ping`.  The second
component is the ghost list of TCP fallback ports attempted (empty on the
pure-ICMP paths). -/
def ping_host (ip : String) (ev : IcmpEv) (attempt : Nat → TcpAttempt)
    (lat : Nat → Int) : (Bool × Option Int × String) × List Nat :=
  match ev with
  | .echo latSec => ((true, some (latSec * 1000),
      "Reply dari " ++ ip ++ ": time=" ++ toString (latSec * 1000) ++ "ms"),
      [])
  | .timeoutNone => ((false, none, "Request timeout untuk " ++ ip), [])
  | .unreachableFalse => ((false, none,
      "Host " ++ ip ++ " tidak dapat dijangkau"), [])
  | .permError => tcp_ping ip attempt lat
  | .otherExc m => ((false, none, "Error: " ++ m), [])

/-- C8: on `PermissionError` the liveness probe falls back to TCP connect
probes in the fixed order 80, 443, 22; it is up with the latency of the
first succeeding port — later ports are not attempted after a success —
and it is down with no latency exactly when all three fallback attempts
fail. -/
theorem ping_host_fallback_order (ip : String) (ev : IcmpEv)
    (attempt : Nat → TcpAttempt) (lat : Nat → Int)
    (hperm : ev = .permError) :
    (attempt 80 = .ret 0 →
      ping_host ip ev attempt lat
        = ((true, some (lat 80),
            "Reply dari " ++ ip ++ " (TCP port " ++ toString (80 : Nat)
              ++ "): time=" ++ toString (lat 80) ++ "ms"), [80]))
    ∧ (attemptFailed (attempt 80) = true → attempt 443 = .ret 0 →
      ping_host ip ev attempt lat
        = ((true, some (lat 443),
            "Reply dari " ++ ip ++ " (TCP port " ++ toString (443 : Nat)
              ++ "): time=" ++ toString (lat 443) ++ "ms"), [80, 443]))
    ∧ (attemptFailed (attempt 80) = true → attemptFailed (attempt 443) = true →
        attempt 22 = .ret 0 →
      ping_host ip ev attempt lat
        = ((true, some (lat 22),
            "Reply dari " ++ ip ++ " (TCP port " ++ toString (22 : Nat)
              ++ "): time=" ++ toString (lat 22) ++ "ms"), [80, 443, 22]))
    ∧ (attemptFailed (attempt 80) = true → attemptFailed (attempt 443) = true →
        attemptFailed (attempt 22) = true →
      ping_host ip ev attempt lat
        = ((false, none, "Host " ++ ip ++ " tidak merespons pada port umum"),
            [80, 443, 22])) := by
  subst hperm
  have hfail : ∀ (a : TcpAttempt), attemptFailed a = true →
      (∀ code, a = .ret code → ¬ code = 0) := by
    intro a ha code hc
    subst hc
    simp [attemptFailed] at ha
    exact ha
  refine ⟨?_, ?_, ?_, ?_⟩
  · intro h80
    simp [ping_host, tcp_ping, fallbackPorts, tcpPingGo, h80]
  · intro h80 h443
    cases ha : attempt 80 with
    | ret code =>
      have := hfail _ (ha ▸ h80) code rfl
      simp [ping_host, tcp_ping, fallbackPorts, tcpPingGo, ha, this, h443]
    | exc m =>
      simp [ping_host, tcp_ping, fallbackPorts, tcpPingGo, ha, h443]
  · intro h80 h443 h22
    cases ha : attempt 80 with
    | ret code =>
      have hc := hfail _ (ha ▸ h80) code rfl
      cases hb : attempt 443 with
      | ret code443 =>
        have hc443 := hfail _ (hb ▸ h443) code443 rfl
        simp [ping_host, tcp_ping, fallbackPorts, tcpPingGo, ha, hc, hb,
          hc443, h22]
      | exc m =>
        simp [ping_host, tcp_ping, fallbackPorts, tcpPingGo, ha, hc, hb, h22]
    | exc m =>
      cases hb : attempt 443 with
      | ret code443 =>
        have hc443 := hfail _ (hb ▸ h443) code443 rfl
        simp [ping_host, tcp_ping, fallbackPorts, tcpPingGo, ha, hb, hc443,
          h22]
      | exc m2 =>
        simp [ping_host, tcp_ping, fallbackPorts, tcpPingGo, ha, hb, h22]
  · intro h80 h443 h22
    cases ha : attempt 80 with
    | ret code =>
      have hc := hfail _ (ha ▸ h80) code rfl
      cases hb : attempt 443 with
      | ret code443 =>
        have hc443 := hfail _ (hb ▸ h443) code443 rfl
        cases hd : attempt 22 with
        | ret code22 =>
          have hc22 := hfail _ (hd ▸ h22) code22 rfl
          simp [ping_host, tcp_ping, fallbackPorts, tcpPingGo, ha, hc, hb,
            hc443, hd, hc22]
        | exc m3 =>
          simp [ping_host, tcp_ping, fallbackPorts, tcpPingGo, ha, hc, hb,
            hc443, hd]
      | exc m =>
        cases hd : attempt 22 with
        | ret code22 =>
          have hc22 := hfail _ (hd ▸ h22) code22 rfl
          simp [ping_host, tcp_ping, fallbackPorts, tcpPingGo, ha, hc, hb,
            hd, hc22]
        | exc m3 =>
          simp [ping_host, tcp_ping, fallbackPorts, tcpPingGo, ha, hc, hb, hd]
    | exc m =>
      cases hb : attempt 443 with
      | ret code443 =>
        have hc443 := hfail _ (hb ▸ h443) code443 rfl
        cases hd : attempt 22 with
        | ret code22 =>
          have hc22 := hfail _ (hd ▸ h22) code22 rfl
          simp [ping_host, tcp_ping, fallbackPorts, tcpPingGo, ha, hb, hc443,
            hd, hc22]
        | exc m3 =>
          simp [ping_host, tcp_ping, fallbackPorts, tcpPingGo, ha, hb, hc443,
            hd]
      | exc m2 =>
        cases hd : attempt 22 with
        | ret code22 =>
          have hc22 := hfail _ (hd ▸ h22) code22 rfl
          simp [ping_host, tcp_ping, fallbackPorts, tcpPingGo, ha, hb, hd,
            hc22]
        | exc m3 =>
          simp [ping_host, tcp_ping, fallbackPorts, tcpPingGo, ha, hb, hd]

/-- Witness for `ping_host_fallback_order`: port 80 refused, port 443
succeeding with latency 7. -/
theorem ping_host_fallback_order_witness :
    ping_host "10.0.0.9" .permError
        (fun p => if p = 443 then .ret 0 else .ret 111) (fun _ => 7)
      = ((true, some 7,
          "Reply dari " ++ "10.0.0.9" ++ " (TCP port " ++ toString (443 : Nat)
            ++ "): time=" ++ toString (7 : Int) ++ "ms"), [80, 443]) := by
  have h := ping_host_fallback_order "10.0.0.9" .permError
    (fun p => if p = 443 then .ret 0 else .ret 111) (fun _ => 7) rfl
  exact h.2.1 (by decide) (by decide)

/-! ## The Result Ranker for host discovery

`discover_hosts` sorts with
`result['hosts'].sort(key=lambda x: [int(p) for p in x['ip'].split('.')])`
(line 215): a stable ascending sort whose keys are lists of ints compared
by Python's lexicographic list order.  `keyLt` is that list comparison. -/

/-- Python's `<` on lists of ints: lexicographic, a strict prefix is
smaller. -/
def keyLt : List Int → List Int → Bool
  | [], [] => false
  | [], _ :: _ => true
  | _ :: _, [] => false
  | a :: as, b :: bs =>
    if a < b then true else if b < a then false else keyLt as bs

lemma keyLt_irrefl (a : List Int) : keyLt a a = false := by
  induction a with
  | nil => rfl
  | cons x xs ih => simp [keyLt, lt_irrefl, ih]

lemma keyLt_trans (a : List Int) : ∀ b c, keyLt a b = true →
    keyLt b c = true → keyLt a c = true := by
  induction a with
  | nil =>
    intro b c hab hbc
    cases b with
    | nil => simp [keyLt] at hab
    | cons y ys =>
      cases c with
      | nil => simp [keyLt] at hbc
      | cons z zs => simp [keyLt]
  | cons x xs ih =>
    intro b c hab hbc
    cases b with
    | nil => simp [keyLt] at hab
    | cons y ys =>
      cases c with
      | nil => simp [keyLt] at hbc
      | cons z zs =>
        simp only [keyLt] at hab hbc ⊢
        by_cases h1 : x < y
        · by_cases h3 : y < z
          · rw [if_pos (lt_trans h1 h3)]
          · by_cases h4 : z < y
            · rw [if_neg h3, if_pos h4] at hbc
              exact absurd hbc (by decide)
            · have hyz : y = z := le_antisymm (not_lt.mp h4) (not_lt.mp h3)
              subst hyz
              rw [if_pos h1]
        · by_cases h2 : y < x
          · rw [if_neg h1, if_pos h2] at hab
            exact absurd hab (by decide)
          · have hxy : x = y := le_antisymm (not_lt.mp h2) (not_lt.mp h1)
            subst hxy
            rw [if_neg h1, if_neg h2] at hab
            by_cases h3 : x < z
            · rw [if_pos h3]
            · by_cases h4 : z < x
              · rw [if_neg h3, if_pos h4] at hbc
                exact absurd hbc (by decide)
              · rw [if_neg h3, if_neg h4] at hbc ⊢
                exact ih ys zs hab hbc

lemma keyLt_trichotomy (a : List Int) : ∀ b,
    keyLt a b = true ∨ keyLt b a = true ∨ a = b := by
  induction a with
  | nil =>
    intro b
    cases b with
    | nil => exact Or.inr (Or.inr rfl)
    | cons y ys => exact Or.inl (by simp [keyLt])
  | cons x xs ih =>
    intro b
    cases b with
    | nil => exact Or.inr (Or.inl (by simp [keyLt]))
    | cons y ys =>
      rcases lt_trichotomy x y with h | h | h
      · exact Or.inl (by simp [keyLt, h])
      · subst h
        rcases ih ys with h2 | h2 | h2
        · exact Or.inl (by simp [keyLt, lt_irrefl, h2])
        · exact Or.inr (Or.inl (by simp [keyLt, lt_irrefl, h2]))
        · exact Or.inr (Or.inr (by rw [h2]))
      · exact Or.inr (Or.inl (by simp [keyLt, h]))

lemma keyLt_asymm (a b : List Int) (h1 : keyLt a b = true)
    (h2 : keyLt b a = true) : False := by
  have h3 := keyLt_trans a b a h1 h2
  rw [keyLt_irrefl] at h3
  exact absurd h3 (by decide)

/-- One discovered host record:
`{'ip': .., 'hostname': .., 'mac': .., 'status': 'up'}`. -/
structure HostInfo where
  ip : String
  hostname : Option String
  mac : Option String
  status : String
deriving DecidableEq, Repr

/-- The sort key `[int(p) for p in x['ip'].split('.')]` of line 215 (the
`getD 0` default is never consulted on the dotted-quad strings the
scanner produces). -/
def hostKey (ip : String) : List Int :=
  (pySplit '.' ip).map (fun s => (pyInt s).getD 0)

/-- The ordering realized by Python's stable ascending `list.sort` with
that key: `a` may precede `b` exactly when `key(b) < key(a)` fails. -/
def hostRankLe (a b : HostInfo) : Prop :=
  keyLt (hostKey b.ip) (hostKey a.ip) = false

instance : DecidableRel hostRankLe := fun a b =>
  instDecidableEqBool (keyLt (hostKey b.ip) (hostKey a.ip)) false

instance : IsTotal HostInfo hostRankLe :=
  ⟨fun a b => by
    unfold hostRankLe
    cases hab : keyLt (hostKey b.ip) (hostKey a.ip) with
    | false => exact Or.inl rfl
    | true =>
      cases hba : keyLt (hostKey a.ip) (hostKey b.ip) with
      | false => exact Or.inr rfl
      | true => exact (keyLt_asymm _ _ hba hab).elim⟩

instance : IsTrans HostInfo hostRankLe :=
  ⟨fun a b c hab hbc => by
    unfold hostRankLe at hab hbc ⊢
    cases hca : keyLt (hostKey c.ip) (hostKey a.ip) with
    | false => rfl
    | true =>
      rcases keyLt_trichotomy (hostKey a.ip) (hostKey b.ip) with h | h | h
      · have h2 := keyLt_trans _ _ _ hca h
        rw [hbc] at h2
        exact absurd h2 (by decide)
      · rw [hab] at h
        exact absurd h (by decide)
      · rw [← h] at hbc
        rw [hbc] at hca
        exact absurd hca (by decide)⟩

/-- The Result Ranker for host discovery: the final
`result['hosts'].sort(key=...)` of `discover_hosts`. -/
def rank_hosts (l : List HostInfo) : List HostInfo :=
  List.insertionSort hostRankLe l

/-- The 32-bit integer value of a 4-part key. -/
def ipNum (key : List Int) : Int :=
  match key with
  | [a, b, c, d] => a * 16777216 + b * 65536 + c * 256 + d
  | _ => 0

/-- A dotted-quad string: the sort key has exactly four components, each
in `[0, 255]`. -/
def validQuad (ip : String) : Bool :=
  match hostKey ip with
  | [a, b, c, d] =>
    decide (0 ≤ a) && decide (a < 256) && decide (0 ≤ b) && decide (b < 256)
      && decide (0 ≤ c) && decide (c < 256) && decide (0 ≤ d)
      && decide (d < 256)
  | _ => false

lemma validQuad_spec (ip : String) (h : validQuad ip = true) :
    ∃ a1 a2 a3 a4 : Int, hostKey ip = [a1, a2, a3, a4]
      ∧ 0 ≤ a1 ∧ a1 < 256 ∧ 0 ≤ a2 ∧ a2 < 256 ∧ 0 ≤ a3 ∧ a3 < 256
      ∧ 0 ≤ a4 ∧ a4 < 256 := by
  unfold validQuad at h
  rcases hk : hostKey ip with _ | ⟨a1, _ | ⟨a2, _ | ⟨a3, _ | ⟨a4, _ | ⟨a5, rest⟩⟩⟩⟩⟩ <;>
    rw [hk] at h <;> simp only [Bool.and_eq_true, decide_eq_true_eq] at h
  · exact absurd h (by simp)
  · exact absurd h (by simp)
  · exact absurd h (by simp)
  · exact absurd h (by simp)
  · exact ⟨a1, a2, a3, a4, rfl, h.1.1.1.1.1.1.1, h.1.1.1.1.1.1.2,
      h.1.1.1.1.1.2, h.1.1.1.1.2, h.1.1.1.2, h.1.1.2, h.1.2, h.2⟩
  · exact absurd h (by simp)

/-- For 4-part bounded keys, Python's list order agrees with the order of
32-bit integer values. -/
lemma keyLt_quad (a1 a2 a3 a4 b1 b2 b3 b4 : Int)
    (ha1 : 0 ≤ a1) (ha1' : a1 < 256) (ha2 : 0 ≤ a2) (ha2' : a2 < 256)
    (ha3 : 0 ≤ a3) (ha3' : a3 < 256) (ha4 : 0 ≤ a4) (ha4' : a4 < 256)
    (hb1 : 0 ≤ b1) (hb1' : b1 < 256) (hb2 : 0 ≤ b2) (hb2' : b2 < 256)
    (hb3 : 0 ≤ b3) (hb3' : b3 < 256) (hb4 : 0 ≤ b4) (hb4' : b4 < 256) :
    keyLt [a1, a2, a3, a4] [b1, b2, b3, b4] = true
      ↔ ipNum [a1, a2, a3, a4] < ipNum [b1, b2, b3, b4] := by
  simp only [keyLt, ipNum]
  split_ifs <;> simp <;> omega

/-- C9: the final ranking is by numeric key — port-scan results come out
sorted by port ascending, host-discovery results come out sorted by the
32-bit integer value of the dotted-quad address ascending (so
`"10.0.0.2"` sorts before `"10.0.0.10"`), and both rankers are
idempotent. -/
theorem ranker_numeric_order_idempotent :
    (∀ l : List Outcome, List.Pairwise portLe (rank_ports l)
      ∧ rank_ports (rank_ports l) = rank_ports l)
    ∧ (∀ l : List HostInfo, (∀ h ∈ l, validQuad h.ip = true) →
        List.Pairwise
          (fun a b => ipNum (hostKey a.ip) ≤ ipNum (hostKey b.ip))
          (rank_hosts l)
        ∧ rank_hosts (rank_hosts l) = rank_hosts l)
    ∧ rank_hosts
        [⟨"10.0.0.10", none, none, "up"⟩, ⟨"10.0.0.2", none, none, "up"⟩]
      = [⟨"10.0.0.2", none, none, "up"⟩, ⟨"10.0.0.10", none, none, "up"⟩] := by
  refine ⟨fun l => ⟨List.sorted_insertionSort portLe l,
      (List.sorted_insertionSort portLe l).insertionSort_eq⟩,
    fun l hval => ⟨?_,
      (List.sorted_insertionSort hostRankLe l).insertionSort_eq⟩,
    by decide⟩
  have hs : List.Pairwise hostRankLe (rank_hosts l) :=
    List.sorted_insertionSort hostRankLe l
  have hmem : ∀ h ∈ rank_hosts l, validQuad h.ip = true := fun h hh =>
    hval h ((List.mem_insertionSort hostRankLe).mp hh)
  refine List.Pairwise.imp_of_mem ?_ hs
  intro a b ha hb hab
  show ipNum (hostKey a.ip) ≤ ipNum (hostKey b.ip)
  obtain ⟨a1, a2, a3, a4, hka, ba1, ba1', ba2, ba2', ba3, ba3', ba4, ba4'⟩ :=
    validQuad_spec a.ip (hmem a ha)
  obtain ⟨b1, b2, b3, b4, hkb, bb1, bb1', bb2, bb2', bb3, bb3', bb4, bb4'⟩ :=
    validQuad_spec b.ip (hmem b hb)
  unfold hostRankLe at hab
  rw [hka, hkb] at hab ⊢
  by_contra hlt
  push_neg at hlt
  have h2 := (keyLt_quad b1 b2 b3 b4 a1 a2 a3 a4 bb1 bb1' bb2 bb2' bb3 bb3'
    bb4 bb4' ba1 ba1' ba2 ba2' ba3 ba3' ba4 ba4').mpr hlt
  rw [hab] at h2
  exact absurd h2 (by decide)

/-- Witness for `ranker_numeric_order_idempotent` on a concrete host list
with valid dotted-quad addresses. -/
theorem ranker_numeric_order_idempotent_witness :
    List.Pairwise
      (fun a b => ipNum (hostKey a.ip) ≤ ipNum (hostKey b.ip))
      (rank_hosts [⟨"192.168.1.7", none, none, "up"⟩,
        ⟨"10.0.0.2", none, none, "up"⟩]) := by
  have h := ranker_numeric_order_idempotent
  exact (h.2.1 [⟨"192.168.1.7", none, none, "up"⟩,
    ⟨"10.0.0.2", none, none, "up"⟩] (by decide)).1

/-! ## `host_discovery.discover_hosts` (src/network/host_discovery.py, lines 143-220)

The external collaborators are oracles: `detected` is what
`get_local_network_range()` would return, `isUp ip` is the result of the
`ping_host_quick` worker for `ip` (that function catches every exception
and returns a plain `bool`, so `future.result()` never raises),
`hostnameOf`/`macOf` are the reverse-DNS and ARP lookups (line 209's
callback is advisory: any exception it raises is swallowed by the inner
`except Exception: pass` after the append and the increment have already
happened, so it cannot change the returned dict).  `order` is the
`as_completed` completion order of the submitted addresses.  The ghost
field `probes` records the addresses actually submitted to the pool. -/

/-- The result dict of `discover_hosts`, plus the ghost `probes` trace. -/
structure DiscoverResult where
  network : Option String
  hosts : List HostInfo
  total_scanned : Nat
  total_found : Nat
  error : Option String
  probes : List String
deriving DecidableEq, Repr

/-- The body of `discover_hosts` once a network range string is in hand
(lines 175-215): empty `ip_list` means `'Invalid network range'` and an
early return with nothing scanned; otherwise every address is submitted,
each completed `is_up` future appends a `status: 'up'` record and bumps
`total_found`, and the hosts are finally sorted by numeric address. -/
def discoverScan (rng : String) (isUp : String → Bool)
    (hostnameOf macOf : String → Option String) (order : List String) :
    DiscoverResult :=
  let ipList := get_ip_range_from_cidr rng
  if ipList.isEmpty then
    { network := some rng, hosts := [], total_scanned := 0, total_found := 0,
      error := some "Invalid network range", probes := [] }
  else
    let found := (order.filter isUp).map
      (fun ip => HostInfo.mk ip (hostnameOf ip) (macOf ip) "up")
    { network := some rng, hosts := rank_hosts found,
      total_scanned := ipList.length, total_found := found.length,
      error := none, probes := ipList }

/-- Function `discover_hosts` (lines 143-220): auto-detect failure is the only
path with a `None` network in the result. -/
def discover_hosts (network_range : Option String)
    (detected : Option String) (isUp : String → Bool)
    (hostnameOf macOf : String → Option String) (order : List String) :
    DiscoverResult :=
  match network_range with
  | none =>
    match detected with
    | none =>
      { network := none, hosts := [], total_scanned := 0, total_found := 0,
        error := some "Could not detect local network", probes := [] }
    | some rng => discoverScan rng isUp hostnameOf macOf order
  | some rng => discoverScan rng isUp hostnameOf macOf order

lemma discoverScan_invariants (rng : String) (isUp : String → Bool)
    (hostnameOf macOf : String → Option String) (order : List String) :
    (discoverScan rng isUp hostnameOf macOf order).total_found
      = (discoverScan rng isUp hostnameOf macOf order).hosts.length
    ∧ (∀ h ∈ (discoverScan rng isUp hostnameOf macOf order).hosts,
        h.status = "up") := by
  unfold discoverScan
  by_cases he : (get_ip_range_from_cidr rng).isEmpty
  · simp [he]
  · simp only [he, Bool.false_eq_true, if_false, if_neg]
    constructor
    · simp [rank_hosts, List.length_insertionSort]
    · intro h hh
      have hm := (List.mem_insertionSort hostRankLe).mp hh
      obtain ⟨ip, _, rfl⟩ := List.mem_map.mp hm
      rfl

/-- C10: the result dict of `discover_hosts` always satisfies
`total_found == len(hosts)`, every listed host has status `'up'`, the
detect-failure path reports a non-`None` error, and an invalid network
range reports the `'Invalid network range'` error (the function returns
this dict rather than raising on those internal failures). -/
theorem discover_hosts_result_invariants (network_range detected : Option String)
    (isUp : String → Bool) (hostnameOf macOf : String → Option String)
    (order : List String) :
    (discover_hosts network_range detected isUp hostnameOf macOf
        order).total_found
      = (discover_hosts network_range detected isUp hostnameOf macOf
          order).hosts.length
    ∧ (∀ h ∈ (discover_hosts network_range detected isUp hostnameOf macOf
        order).hosts, h.status = "up")
    ∧ (network_range = none → detected = none →
        (discover_hosts network_range detected isUp hostnameOf macOf
          order).error ≠ none)
    ∧ (∀ rng, network_range = some rng → get_ip_range_from_cidr rng = [] →
        (discover_hosts network_range detected isUp hostnameOf macOf
          order).error = some "Invalid network range") := by
  cases network_range with
  | none =>
    cases detected with
    | none =>
      refine ⟨rfl, ?_, ?_, ?_⟩
      · intro h hh
        simp [discover_hosts] at hh
      · intro _ _
        simp [discover_hosts]
      · intro rng hrng
        exact absurd hrng (by simp)
    | some rng =>
      have hinv := discoverScan_invariants rng isUp hostnameOf macOf order
      refine ⟨hinv.1, hinv.2, ?_, ?_⟩
      · intro _ hdet
        exact absurd hdet (by simp)
      · intro rng2 hrng _
        exact absurd hrng (by simp)
  | some rng =>
    have hinv := discoverScan_invariants rng isUp hostnameOf macOf order
    refine ⟨hinv.1, hinv.2, ?_, ?_⟩
    · intro hnr
      exact absurd hnr (by simp)
    · intro rng2 hrng hempty
      injection hrng with hr
      subst hr
      show (discoverScan rng isUp hostnameOf macOf order).error
        = some "Invalid network range"
      unfold discoverScan
      simp [hempty]

/-- Witness for `discover_hosts_result_invariants` on the
auto-detect-failure path. -/
theorem discover_hosts_result_invariants_witness :
    (discover_hosts none none (fun _ => true) (fun _ => none)
      (fun _ => none) []).error ≠ none :=
  (discover_hosts_result_invariants none none (fun _ => true)
    (fun _ => none) (fun _ => none) []).2.2.1 rfl rfl

/-- C3 counterexample: the CIDR string with network `10.0.0.0` and prefix
`-1` has its prefix outside `[0,32]`, but far from failing the scan,
`get_ip_range_from_cidr` returns 254 addresses, `discover_hosts` submits
all of them as probes, and no error is reported. -/
theorem negative_prefix_is_scanned :
    parseCidr "10.0.0.0/-1" = some (167772160, -1)
    ∧ (discover_hosts (some "10.0.0.0/-1") none (fun _ => false)
        (fun _ => none) (fun _ => none) []).probes.length = 254
    ∧ (discover_hosts (some "10.0.0.0/-1") none (fun _ => false)
        (fun _ => none) (fun _ => none) []).error = none := by
  exact ⟨by decide, by decide, by decide⟩

/-- C3 (amended): for a malformed CIDR, and for a prefix above 32,
`get_ip_range_from_cidr` signals the invalid target with an empty list
(there is no `InvalidTargetError` exception in the code) and
`discover_hosts` then records `'Invalid network range'` and dispatches no
probe; a prefix below 0 is not rejected (see the counterexample). -/
theorem invalid_cidr_blocks_scan (cidr : String) (detected : Option String)
    (isUp : String → Bool) (hostnameOf macOf : String → Option String)
    (order : List String)
    (hbad : parseCidr cidr = none
      ∨ ∃ b p, parseCidr cidr = some (b, p) ∧ 32 < p) :
    get_ip_range_from_cidr cidr = []
    ∧ (discover_hosts (some cidr) detected isUp hostnameOf macOf
        order).probes = []
    ∧ (discover_hosts (some cidr) detected isUp hostnameOf macOf
        order).error = some "Invalid network range" := by
  have hempty : get_ip_range_from_cidr cidr = [] := by
    rcases hbad with h | ⟨b, p, hp, h32⟩
    · simp [get_ip_range_from_cidr, h]
    · simp only [get_ip_range_from_cidr, hp]
      rw [if_pos h32]
  refine ⟨hempty, ?_, ?_⟩
  · show (discoverScan cidr isUp hostnameOf macOf order).probes = []
    unfold discoverScan
    simp [hempty]
  · show (discoverScan cidr isUp hostnameOf macOf order).error
      = some "Invalid network range"
    unfold discoverScan
    simp [hempty]

/-- Witness for `invalid_cidr_blocks_scan` at the malformed target
`"abc"`. -/
theorem invalid_cidr_blocks_scan_witness :
    (discover_hosts (some "abc") none (fun _ => true) (fun _ => none)
      (fun _ => none) []).probes = [] :=
  (invalid_cidr_blocks_scan "abc" none (fun _ => true) (fun _ => none)
    (fun _ => none) [] (Or.inl (by decide))).2.1
